import Mathlib

/-!
Shallow embedding of `aiidalab_widgets_base/wizard.py`.

The module defines two classes:

* `WizardAppWidgetStep` — one step of a wizard, a traitlets object with a
  `state` trait (an enumeration of six members), an `auto_advance` boolean
  trait, and a `can_reset` method testing for an optional `reset` attribute.

* `WizardAppWidget` — the wizard controller: it owns the ordered sequence of
  (title, step widget) pairs, an accordion whose `selected_index` is linked to
  the controller's own `selected_index` trait, and three buttons (Back, Reset,
  Next) whose `disabled` flags are recomputed from the selected index and the
  selected step's state.

The embedding models the observable controller state as a record and each
method of the source as a function on that record.  Methods that can raise in
Python (an out-of-range accordion child access, arithmetic on a `None` index)
return `Option`; `none` models the raised exception.  Wall-clock time enters
only through the choice of the ACTIVE animation glyph, modelled by an abstract
`phase` argument standing for `int(t * 4 % 4)`.
-/

/-- The `WizardAppWidgetStep.State` enumeration of `wizard.py`: INIT (the
implicit default), CONFIGURED, READY, ACTIVE, SUCCESS, and the error state
FAIL. -/
inductive WizardAppWidgetStep.State where
  | INIT
  | CONFIGURED
  | READY
  | ACTIVE
  | SUCCESS
  | FAIL
deriving DecidableEq, Repr

/-- The integer code of each `State` member; FAIL is the only negative one. -/
def WizardAppWidgetStep.State.code : WizardAppWidgetStep.State → Int
  | .INIT => 0
  | .CONFIGURED => 1
  | .READY => 2
  | .ACTIVE => 3
  | .SUCCESS => 4
  | .FAIL => -1

/-- A value held by a step's `state` attribute.  The six enumeration members
are the recognized values; `raw` models an unmodeled value (a bare string)
reaching the title renderer, which must fall back to `str(value).upper()`
because the value is missing from the icon dictionary. -/
inductive StateVal where
  | enum : WizardAppWidgetStep.State → StateVal
  | raw : String → StateVal
deriving DecidableEq, Repr

/-- One step widget: its `state` trait value, its `auto_advance` trait, and
whether the concrete step object carries a `reset` attribute, which the source
tests with `hasattr(self, "reset")`. -/
structure WizardAppWidgetStep where
  state : StateVal
  auto_advance : Bool
  hasReset : Bool
deriving DecidableEq, Repr

/-- `WizardAppWidgetStep.can_reset`: `return hasattr(self, "reset")`. -/
def WizardAppWidgetStep.can_reset (s : WizardAppWidgetStep) : Bool :=
  s.hasReset

/-- The observable state of a `WizardAppWidget`: the step titles and step
widgets fixed at construction (`self.titles` and `self.accordion.children`),
the `selected_index` trait (`None` or an accordion child index, kept in sync
with the accordion by a trait link), the accordion titles last written by
`set_title`, and the `disabled` flag of each of the three buttons. -/
structure WizardAppWidget where
  titles : List String
  children : List WizardAppWidgetStep
  selected_index : Option Nat
  displayedTitles : List String
  back_disabled : Bool
  next_disabled : Bool
  reset_disabled : Bool
deriving DecidableEq, Repr

namespace WizardAppWidget

/-- The four rotating glyphs of `ICONS` for the ACTIVE state. -/
def ACTIVE_ICONS : List String := ["◜", "◝", "◞", "◟"]

/-- `WizardAppWidget.icons()`: the icon for each recognized state.  The ACTIVE
icon is one of four glyphs chosen by the wall-clock derived animation phase
`int(t * 4 % 4)`, passed in here as `phase`. -/
def icons (phase : Nat) : WizardAppWidgetStep.State → String
  | .INIT => "○"
  | .READY => "◎"
  | .CONFIGURED => "●"
  | .ACTIVE => ACTIVE_ICONS.getD (phase % ACTIVE_ICONS.length) ""
  | .SUCCESS => "✓"
  | .FAIL => "×"

/-- The icon lookup of `_update_titles`:
`self.icons().get(widget.state, str(widget.state).upper())` — a dictionary
lookup that succeeds on the six recognized states and otherwise falls back to
the upper-cased string form of the value. -/
def iconFor (phase : Nat) : StateVal → String
  | .enum st => icons phase st
  | .raw s => s.toUpper

/-- The accordion title written for slot `i` by `_update_titles`: the icon,
a space, then `Step`, the one-based position, a colon and the step title. -/
def renderTitle (phase : Nat) (i : Nat) (title : String) (st : StateVal) : String :=
  iconFor phase st ++ " Step " ++ toString (i + 1) ++ ": " ++ title

/-- `_update_titles`: re-render every accordion title from the current step
states, iterating `zip(self.titles, self.accordion.children)` with `set_title`
on each slot. -/
def update_titles (phase : Nat) (w : WizardAppWidget) : WizardAppWidget :=
  { w with displayedTitles :=
      ((w.titles.zip w.children).enum).map fun p =>
        renderTitle phase p.1 p.2.1 p.2.2.state }

/-- `WizardAppWidget.can_reset`: returns `False` as soon as any step lacks the
reset capability; returns `True` when, in addition, some step's state is not
INIT; otherwise the Python function falls off the end and returns `None`,
modelled as `none`. -/
def can_reset (w : WizardAppWidget) : Option Bool :=
  if w.children.any fun step => ! step.can_reset then some false
  else if w.children.any fun step => ! (step.state == StateVal.enum .INIT) then some true
  else none

/-- Python truthiness of the `can_reset` result as used by `_update_buttons`:
`None` and `False` are falsy, `True` is truthy. -/
def truthy : Option Bool → Bool
  | some b => b
  | none => false

/-- `_update_buttons`: when `selected_index` is `None`, disable all three
buttons; otherwise recompute each button's `disabled` flag from the selected
position and the selected step's state.  `none` models the IndexError raised
by `self.accordion.children[index]` when the index is out of range. -/
def update_buttons (w : WizardAppWidget) : Option WizardAppWidget :=
  match w.selected_index with
  | none =>
    some { w with back_disabled := true, next_disabled := true, reset_disabled := true }
  | some index =>
    match w.children[index]? with
    | none => none
    | some selected_widget =>
      let first_step_selected : Bool := index == 0
      let last_step_selected : Bool := index + 1 == w.children.length
      some { w with
        back_disabled :=
          first_step_selected
            || (selected_widget.state == StateVal.enum .ACTIVE
                || selected_widget.state == StateVal.enum .SUCCESS
                || selected_widget.state == StateVal.enum .FAIL),
        next_disabled :=
          last_step_selected
            || ! (selected_widget.state == StateVal.enum .SUCCESS),
        reset_disabled := ! truthy w.can_reset }

/-- `_consider_auto_advance`: advance `selected_index` by one exactly when the
selected step has `auto_advance` set, is not the last step, and its state is
SUCCESS.  `none` models the TypeError raised by `index + 1` when the index is
`None`, and the IndexError raised by the child access when it is out of
range. -/
def consider_auto_advance (w : WizardAppWidget) : Option WizardAppWidget :=
  match w.selected_index with
  | none => none
  | some index =>
    let last_step_selected : Bool := index + 1 == w.children.length
    match w.children[index]? with
    | none => none
    | some selected_widget =>
      if selected_widget.auto_advance && ! last_step_selected
          && selected_widget.state == StateVal.enum .SUCCESS
      then some { w with selected_index := some (index + 1) }
      else some w

/-- `_update_step_state`, the observer registered on every step's `state`
trait: re-render the titles, recompute the buttons, then consider
auto-advance.  When auto-advance changed `selected_index`, the trait link
delivers the change and `_observe_selected_index` recomputes the buttons once
more on leaving `hold_trait_notifications`; when the index is unchanged no
notification fires. -/
def update_step_state (phase : Nat) (w : WizardAppWidget) : Option WizardAppWidget :=
  match update_buttons (update_titles phase w) with
  | none => none
  | some w2 =>
    match consider_auto_advance w2 with
    | none => none
    | some w3 =>
      if w3.selected_index = w2.selected_index then some w3 else update_buttons w3

/-- `_on_click_next_button`: `self.accordion.selected_index += 1`, after which
`_observe_selected_index` recomputes the buttons.  `none` models the TypeError
on `None + 1`. -/
def on_click_next_button (w : WizardAppWidget) : Option WizardAppWidget :=
  match w.selected_index with
  | none => none
  | some index => update_buttons { w with selected_index := some (index + 1) }

/-- `_on_click_back_button`: `self.accordion.selected_index -= 1`, after which
`_observe_selected_index` recomputes the buttons.  Nat subtraction agrees with
the source for every index ≥ 1; the Back button is disabled while index 0 is
selected, so the truncated case is exercised by no claim.  `none` models the
TypeError on `None - 1`. -/
def on_click_back_button (w : WizardAppWidget) : Option WizardAppWidget :=
  match w.selected_index with
  | none => none
  | some index => update_buttons { w with selected_index := some (index - 1) }

/-- The indices on which `WizardAppWidget.reset` invokes a step's `reset()`,
listed in call order: the loop runs over `reversed(range(step, len(children)))`
and calls `reset` exactly on the children carrying a `reset` attribute. -/
def resetInvocations (w : WizardAppWidget) (step : Nat) : List Nat :=
  ((List.range' step (w.children.length - step)).reverse).filter fun index =>
    match w.children[index]? with
    | some child => child.hasReset
    | none => false

/-- `WizardAppWidget.__init__`: raises ValueError when fewer than two
(title, step) pairs are given, returning no controller; otherwise unzips the
pairs into titles and widgets, builds the accordion (whose initial
`selected_index` is 0, mirrored into the controller by the trait link),
renders the initial titles, and creates the three buttons with
`disabled=True`.  Every step of the model carries the `state` trait, so the
per-widget `assert widget.has_trait("state")` always passes here. -/
def init (phase : Nat) (steps : List (String × WizardAppWidgetStep)) :
    Except String WizardAppWidget :=
  if steps.length < 2 then
    Except.error "The number of steps of a WizardAppWidget must be at least two."
  else
    Except.ok (update_titles phase
      { titles := steps.map Prod.fst
        children := steps.map Prod.snd
        selected_index := some 0
        displayedTitles := steps.map fun _ => ""
        back_disabled := true
        next_disabled := true
        reset_disabled := true })

/-! Concrete fixtures used to instantiate the theorems below. -/

/-- A step fixture with the given state, auto-advance flag and reset
capability. -/
def stepOf (st : StateVal) (adv : Bool) (hr : Bool) : WizardAppWidgetStep :=
  { state := st, auto_advance := adv, hasReset := hr }

/-- A controller fixture over the given steps with the given selection. -/
def wizardOf (steps : List WizardAppWidgetStep) (sel : Option Nat) : WizardAppWidget :=
  { titles := steps.map fun _ => "step"
    children := steps
    selected_index := sel
    displayedTitles := steps.map fun _ => ""
    back_disabled := true
    next_disabled := true
    reset_disabled := true }

/-- Three steps, the first two already SUCCESS with `auto_advance`, the first
one selected: the configuration of the auto-advance chaining scenario. -/
def wChain : WizardAppWidget :=
  wizardOf
    [stepOf (.enum .SUCCESS) true true,
     stepOf (.enum .SUCCESS) true true,
     stepOf (.enum .INIT) false true]
    (some 0)

/-- Two steps, the first SUCCESS and selected. -/
def wNextReady : WizardAppWidget :=
  wizardOf [stepOf (.enum .SUCCESS) false true, stepOf (.enum .INIT) false true] (some 0)

/-- Three steps, the middle one READY and selected. -/
def wBackReady : WizardAppWidget :=
  wizardOf
    [stepOf (.enum .INIT) false true,
     stepOf (.enum .READY) false true,
     stepOf (.enum .INIT) false true]
    (some 1)

/-- Two resettable steps, both still INIT. -/
def wAllInit : WizardAppWidget :=
  wizardOf [stepOf (.enum .INIT) false true, stepOf (.enum .INIT) false true] (some 0)

/-- Three resettable steps. -/
def wThree : WizardAppWidget :=
  wizardOf
    [stepOf (.enum .SUCCESS) false true,
     stepOf (.enum .READY) false true,
     stepOf (.enum .INIT) false true]
    (some 0)

/-- A controller with no selection. -/
def wNone : WizardAppWidget :=
  wizardOf [stepOf (.enum .INIT) false true, stepOf (.enum .INIT) false true] none

/-- Two steps, the first holding an unmodeled raw state value and selected. -/
def wRaw : WizardAppWidget :=
  wizardOf [stepOf (.raw "broken") false true, stepOf (.enum .INIT) false true] (some 0)

/-! General lemmas about the embedded operations, shared by the claim
theorems below. -/

theorem update_titles_spec (phase : Nat) (w : WizardAppWidget) :
    (update_titles phase w).selected_index = w.selected_index
    ∧ (update_titles phase w).children = w.children :=
  ⟨rfl, rfl⟩

theorem update_buttons_eq (w : WizardAppWidget) (i : Nat) (s : WizardAppWidgetStep)
    (hsel : w.selected_index = some i) (hs : w.children[i]? = some s) :
    update_buttons w = some
      { w with
        back_disabled :=
          (i == 0)
            || (s.state == StateVal.enum .ACTIVE
                || s.state == StateVal.enum .SUCCESS
                || s.state == StateVal.enum .FAIL),
        next_disabled :=
          (i + 1 == w.children.length) || ! (s.state == StateVal.enum .SUCCESS),
        reset_disabled := ! truthy w.can_reset } := by
  simp only [update_buttons, hsel, hs]

theorem consider_auto_advance_advances (w : WizardAppWidget) (i : Nat)
    (s : WizardAppWidgetStep)
    (hsel : w.selected_index = some i) (hs : w.children[i]? = some s)
    (hadv : s.auto_advance = true) (hsucc : s.state = StateVal.enum .SUCCESS)
    (hlast : i + 1 ≠ w.children.length) :
    consider_auto_advance w = some { w with selected_index := some (i + 1) } := by
  simp only [consider_auto_advance, hsel, hs, hadv, hsucc]
  simp [hlast]

end WizardAppWidget

namespace WizardAppWidget

/-- C9: the periodic animation title refresh is display-only: one execution of
`_update_titles` leaves `selected_index`, the step widgets (hence every step's
state), the construction titles and the three button flags unchanged, mutating
only the displayed accordion titles. -/
theorem c9_title_refresh_display_only (phase : Nat) (w : WizardAppWidget) :
    (update_titles phase w).selected_index = w.selected_index
    ∧ (update_titles phase w).children = w.children
    ∧ (update_titles phase w).titles = w.titles
    ∧ (update_titles phase w).back_disabled = w.back_disabled
    ∧ (update_titles phase w).next_disabled = w.next_disabled
    ∧ (update_titles phase w).reset_disabled = w.reset_disabled :=
  ⟨rfl, rfl, rfl, rfl, rfl, rfl⟩

/-- C7: whenever `selected_index` is unset, `_update_buttons` disables the
Back, Next and Reset buttons. -/
theorem c7_unset_index_disables_all (w w2 : WizardAppWidget)
    (h : w.selected_index = none) (h2 : update_buttons w = some w2) :
    w2.back_disabled = true ∧ w2.next_disabled = true ∧ w2.reset_disabled = true := by
  simp only [update_buttons, h, Option.some.injEq] at h2
  subst h2
  exact ⟨rfl, rfl, rfl⟩

/-- Witness for C7 at a concrete controller with no selection. -/
theorem c7_witness :
    wNone.selected_index = none
    ∧ ∃ w2, update_buttons wNone = some w2
        ∧ w2.back_disabled = true ∧ w2.next_disabled = true ∧ w2.reset_disabled = true := by
  refine ⟨rfl, ?_⟩
  obtain ⟨w2, hw2⟩ : ∃ w2, update_buttons wNone = some w2 := ⟨_, rfl⟩
  exact ⟨w2, hw2, c7_unset_index_disables_all wNone w2 rfl hw2⟩

/-- C10: when `selected_index` is set and within bounds, the handler's read of
the selected child is in bounds and `_consider_auto_advance` completes without
error. -/
theorem c10_auto_advance_safe (w : WizardAppWidget) (i : Nat)
    (hsel : w.selected_index = some i) (hi : i < w.children.length) :
    (w.children[i]?).isSome = true ∧ ∃ w2, consider_auto_advance w = some w2 := by
  have hget : w.children[i]? = some w.children[i] := List.getElem?_eq_getElem hi
  refine ⟨by simp [hget], ?_⟩
  simp only [consider_auto_advance, hsel, hget]
  split
  · exact ⟨_, rfl⟩
  · exact ⟨_, rfl⟩

/-- Witness for C10 at a concrete three-step controller with index 0
selected. -/
theorem c10_witness :
    wChain.selected_index = some 0 ∧ 0 < wChain.children.length
    ∧ ((wChain.children[0]?).isSome = true
        ∧ ∃ w2, consider_auto_advance wChain = some w2) :=
  ⟨rfl, by decide, c10_auto_advance_safe wChain 0 rfl (by decide)⟩

/-- C8: a step state outside the six recognized values renders via the
fallback, the upper-cased string form of the value, with no exception (the
renderer is total), and the Next button stays disabled because only exact
SUCCESS enables it. -/
theorem c8_raw_state_fallback (phase : Nat) (sv : String) (i : Nat) (title : String) :
    iconFor phase (StateVal.raw sv) = sv.toUpper
    ∧ renderTitle phase i title (StateVal.raw sv)
        = sv.toUpper ++ " Step " ++ toString (i + 1) ++ ": " ++ title
    ∧ ∀ (w w2 : WizardAppWidget) (s : WizardAppWidgetStep),
        w.selected_index = some i → w.children[i]? = some s →
        s.state = StateVal.raw sv → update_buttons w = some w2 →
        w2.next_disabled = true := by
  refine ⟨rfl, rfl, ?_⟩
  intro w w2 s hsel hs hst h2
  simp only [update_buttons, hsel, hs, Option.some.injEq] at h2
  subst h2
  simp [hst]

/-- Witness for C8 at a concrete controller whose selected step holds the raw
state value "broken". -/
theorem c8_witness :
    iconFor 0 (StateVal.raw "broken") = "broken".toUpper
    ∧ ∃ w2, update_buttons wRaw = some w2 ∧ w2.next_disabled = true := by
  obtain ⟨w2, hw2⟩ : ∃ w2, update_buttons wRaw = some w2 := ⟨_, rfl⟩
  exact ⟨(c8_raw_state_fallback 0 "broken" 0 "t").1, w2, hw2,
    (c8_raw_state_fallback 0 "broken" 0 "t").2.2 wRaw w2 _ rfl rfl rfl hw2⟩

/-- C6: constructing a `WizardAppWidget` with fewer than two (title, step)
pairs fails with a construction error and yields no controller, while
construction with at least two pairs succeeds. -/
theorem c6_construction_contract (phase : Nat)
    (steps : List (String × WizardAppWidgetStep)) :
    (steps.length < 2 → ∃ msg, init phase steps = Except.error msg)
    ∧ (2 ≤ steps.length → ∃ w, init phase steps = Except.ok w) := by
  constructor
  · intro h
    refine ⟨"The number of steps of a WizardAppWidget must be at least two.", ?_⟩
    simp only [init]
    rw [if_pos h]
  · intro h
    refine ⟨update_titles phase
      { titles := steps.map Prod.fst
        children := steps.map Prod.snd
        selected_index := some 0
        displayedTitles := steps.map fun _ => ""
        back_disabled := true
        next_disabled := true
        reset_disabled := true }, ?_⟩
    simp only [init]
    rw [if_neg (Nat.not_lt.mpr h)]

/-- Witness for C6: construction with 0 and with 1 step fails, with 2 steps
succeeds. -/
theorem c6_witness :
    (∃ msg, init 0 ([] : List (String × WizardAppWidgetStep)) = Except.error msg)
    ∧ (∃ msg, init 0 [("a", stepOf (.enum .INIT) false true)] = Except.error msg)
    ∧ ∃ w, init 0
        [("a", stepOf (.enum .INIT) false true),
         ("b", stepOf (.enum .INIT) false true)] = Except.ok w :=
  ⟨(c6_construction_contract 0 _).1 (by decide),
   (c6_construction_contract 0 _).1 (by decide),
   (c6_construction_contract 0 _).2 (by decide)⟩

end WizardAppWidget

namespace WizardAppWidget

/-- C1: after a button recomputation with step `i` selected, the Next button
is enabled iff the selected step's state is exactly SUCCESS and `i` is not the
last step; when enabled, clicking Next moves `selected_index` to `i + 1`. -/
theorem c1_next_button (w w2 : WizardAppWidget) (i : Nat) (s : WizardAppWidgetStep)
    (hsel : w.selected_index = some i) (hs : w.children[i]? = some s)
    (hb : update_buttons w = some w2) :
    (w2.next_disabled = false ↔
      (s.state = StateVal.enum .SUCCESS ∧ i + 1 ≠ w.children.length))
    ∧ (w2.next_disabled = false →
        ∃ w3, on_click_next_button w2 = some w3 ∧ w3.selected_index = some (i + 1)) := by
  have hi : i < w.children.length := by
    rcases List.getElem?_eq_some.mp hs with ⟨h, -⟩
    exact h
  rw [update_buttons_eq w i s hsel hs, Option.some.injEq] at hb
  have hnext : w2.next_disabled
      = ((i + 1 == w.children.length) || ! (s.state == StateVal.enum .SUCCESS)) := by
    rw [← hb]
  have hsel2 : w2.selected_index = some i := by
    rw [← hb]; exact hsel
  have hch : w2.children = w.children := by
    rw [← hb]
  have hiff : w2.next_disabled = false
      ↔ (s.state = StateVal.enum .SUCCESS ∧ i + 1 ≠ w.children.length) := by
    rw [hnext]
    simp [Bool.or_eq_false_iff, beq_eq_false_iff_ne, and_comm]
  refine ⟨hiff, fun hen => ?_⟩
  obtain ⟨hsucc, hlast⟩ := hiff.mp hen
  have hi1 : i + 1 < w.children.length := by omega
  have hget2 : w2.children[i + 1]? = some (w.children[i + 1]) := by
    rw [hch]
    exact List.getElem?_eq_getElem hi1
  have hstep : on_click_next_button w2
      = update_buttons { w2 with selected_index := some (i + 1) } := by
    simp only [on_click_next_button, hsel2]
  rw [hstep]
  exact ⟨_, update_buttons_eq _ (i + 1) (w.children[i + 1]) rfl hget2, rfl⟩

/-- Witness for C1 at a concrete two-step controller whose first step is
SUCCESS and selected: Next is enabled and a click selects step 1. -/
theorem c1_witness :
    ∃ w2, update_buttons wNextReady = some w2
      ∧ w2.next_disabled = false
      ∧ ∃ w3, on_click_next_button w2 = some w3 ∧ w3.selected_index = some (0 + 1) := by
  obtain ⟨w2, hw2⟩ : ∃ w2, update_buttons wNextReady = some w2 := ⟨_, rfl⟩
  have h := c1_next_button wNextReady w2 0 (stepOf (.enum .SUCCESS) false true) rfl rfl hw2
  have hen : w2.next_disabled = false := h.1.mpr ⟨rfl, by decide⟩
  exact ⟨w2, hw2, hen, h.2 hen⟩

/-- C2: after a button recomputation with step `i` selected, the Back button
is enabled iff `i` is not the first step and the selected step's state is none
of ACTIVE, SUCCESS and FAIL; when enabled, clicking Back moves
`selected_index` to `i - 1`. -/
theorem c2_back_button (w w2 : WizardAppWidget) (i : Nat) (s : WizardAppWidgetStep)
    (hsel : w.selected_index = some i) (hs : w.children[i]? = some s)
    (hb : update_buttons w = some w2) :
    (w2.back_disabled = false ↔
      (i ≠ 0 ∧ s.state ≠ StateVal.enum .ACTIVE ∧ s.state ≠ StateVal.enum .SUCCESS
        ∧ s.state ≠ StateVal.enum .FAIL))
    ∧ (w2.back_disabled = false →
        ∃ w3, on_click_back_button w2 = some w3 ∧ w3.selected_index = some (i - 1)) := by
  have hi : i < w.children.length := by
    rcases List.getElem?_eq_some.mp hs with ⟨h, -⟩
    exact h
  rw [update_buttons_eq w i s hsel hs, Option.some.injEq] at hb
  have hback : w2.back_disabled
      = ((i == 0)
          || (s.state == StateVal.enum .ACTIVE || s.state == StateVal.enum .SUCCESS
              || s.state == StateVal.enum .FAIL)) := by
    rw [← hb]
  have hsel2 : w2.selected_index = some i := by
    rw [← hb]; exact hsel
  have hch : w2.children = w.children := by
    rw [← hb]
  have hiff : w2.back_disabled = false
      ↔ (i ≠ 0 ∧ s.state ≠ StateVal.enum .ACTIVE ∧ s.state ≠ StateVal.enum .SUCCESS
          ∧ s.state ≠ StateVal.enum .FAIL) := by
    rw [hback]
    simp [Bool.or_eq_false_iff, beq_eq_false_iff_ne, and_assoc]
  refine ⟨hiff, fun hen => ?_⟩
  obtain ⟨hzero, -, -, -⟩ := hiff.mp hen
  have hi1 : i - 1 < w.children.length := by omega
  have hget2 : w2.children[i - 1]? = some (w.children[i - 1]) := by
    rw [hch]
    exact List.getElem?_eq_getElem hi1
  have hstep : on_click_back_button w2
      = update_buttons { w2 with selected_index := some (i - 1) } := by
    simp only [on_click_back_button, hsel2]
  rw [hstep]
  exact ⟨_, update_buttons_eq _ (i - 1) (w.children[i - 1]) rfl hget2, rfl⟩

/-- Witness for C2 at a concrete three-step controller whose middle step is
READY and selected: Back is enabled and a click selects step 0. -/
theorem c2_witness :
    ∃ w2, update_buttons wBackReady = some w2
      ∧ w2.back_disabled = false
      ∧ ∃ w3, on_click_back_button w2 = some w3 ∧ w3.selected_index = some (1 - 1) := by
  obtain ⟨w2, hw2⟩ : ∃ w2, update_buttons wBackReady = some w2 := ⟨_, rfl⟩
  have h := c2_back_button wBackReady w2 1 (stepOf (.enum .READY) false true) rfl rfl hw2
  have hen : w2.back_disabled = false := h.1.mpr ⟨by decide, by decide, by decide, by decide⟩
  exact ⟨w2, hw2, hen, h.2 hen⟩

end WizardAppWidget

namespace WizardAppWidget

/-- C4: `can_reset()` is truthy iff every step supports the reset capability
and at least one step is not INIT; it returns `False` whenever any step lacks
reset support; and when every step supports reset but all steps are INIT it
returns the falsy `None`. -/
theorem c4_can_reset_spec (w : WizardAppWidget) :
    (truthy w.can_reset = true ↔
      ((∀ s ∈ w.children, s.can_reset = true)
        ∧ ∃ s ∈ w.children, s.state ≠ StateVal.enum .INIT))
    ∧ ((∃ s ∈ w.children, s.can_reset = false) → w.can_reset = some false)
    ∧ (((∀ s ∈ w.children, s.can_reset = true)
          ∧ ∀ s ∈ w.children, s.state = StateVal.enum .INIT)
        → w.can_reset = none ∧ truthy w.can_reset = false) := by
  cases hA : w.children.any (fun step => ! step.can_reset) with
  | true =>
    have hcr : w.can_reset = some false := by
      simp only [can_reset, hA, if_true]
    have htr : truthy w.can_reset = false := by
      rw [hcr]; rfl
    obtain ⟨s0, hmem, hs0⟩ := List.any_eq_true.mp hA
    rw [Bool.not_eq_true'] at hs0
    refine ⟨?_, fun _ => hcr, fun hall => ?_⟩
    · constructor
      · intro h
        rw [htr] at h
        exact absurd h (by decide)
      · rintro ⟨hall2, -⟩
        have h1 := hall2 s0 hmem
        rw [h1] at hs0
        exact absurd hs0 (by decide)
    · have h1 := hall.1 s0 hmem
      rw [h1] at hs0
      exact absurd hs0 (by decide)
  | false =>
    have hallr : ∀ s ∈ w.children, s.can_reset = true := by
      intro s hmem
      have h := List.any_eq_false.mp hA s hmem
      simpa using h
    cases hB : w.children.any (fun step => ! (step.state == StateVal.enum .INIT)) with
    | true =>
      have hcr : w.can_reset = some true := by
        simp only [can_reset, hA, hB, if_true, Bool.false_eq_true, if_false]
      obtain ⟨s0, hmem, hs0⟩ := List.any_eq_true.mp hB
      rw [Bool.not_eq_true', beq_eq_false_iff_ne] at hs0
      refine ⟨?_, fun hex => ?_, fun hall => ?_⟩
      · rw [hcr]
        simp only [truthy, true_iff]
        exact ⟨hallr, s0, hmem, hs0⟩
      · obtain ⟨s1, hm1, h1⟩ := hex
        have h2 := hallr s1 hm1
        rw [h2] at h1
        exact absurd h1 (by decide)
      · exact absurd (hall.2 s0 hmem) hs0
    | false =>
      have hallinit : ∀ s ∈ w.children, s.state = StateVal.enum .INIT := by
        intro s hmem
        have h := List.any_eq_false.mp hB s hmem
        simpa using h
      have hcr : w.can_reset = none := by
        simp only [can_reset, hA, hB, Bool.false_eq_true, if_false]
      refine ⟨?_, fun hex => ?_, fun _ => ⟨hcr, by rw [hcr]; rfl⟩⟩
      · rw [hcr]
        simp only [truthy, Bool.false_eq_true, false_iff]
        rintro ⟨-, s0, hmem, hs0⟩
        exact hs0 (hallinit s0 hmem)
      · obtain ⟨s1, hm1, h1⟩ := hex
        have h2 := hallr s1 hm1
        rw [h2] at h1
        exact absurd h1 (by decide)

/-- Witness for C4: a two-step, all-INIT, all-resettable controller has the
falsy `None` result, and a controller with a non-INIT resettable step is
truthy. -/
theorem c4_witness :
    (wAllInit.can_reset = none ∧ truthy wAllInit.can_reset = false)
    ∧ truthy wThree.can_reset = true :=
  ⟨(c4_can_reset_spec wAllInit).2.2 ⟨by decide, by decide⟩,
   (c4_can_reset_spec wThree).1.mpr
     ⟨by decide, stepOf (.enum .SUCCESS) false true, by decide, by decide⟩⟩

/-- C5: when every step supports reset, `reset(from_index)` invokes the steps'
`reset()` callbacks once each, exactly on the indices from the last step down
to `from_index`, in strictly decreasing order. -/
theorem c5_reset_reverse_order (w : WizardAppWidget) (from_index : Nat)
    (hall : ∀ s ∈ w.children, s.hasReset = true)
    (hfrom : from_index < w.children.length) :
    resetInvocations w from_index
        = (List.range' from_index (w.children.length - from_index)).reverse
    ∧ List.Pairwise (fun a b => b < a) (resetInvocations w from_index)
    ∧ ∀ i, from_index ≤ i → i < w.children.length →
        (resetInvocations w from_index).count i = 1 := by
  have hsub : ∀ x ∈ (List.range' from_index (w.children.length - from_index)).reverse,
      (fun index =>
        match w.children[index]? with
        | some child => child.hasReset
        | none => false) x = true := by
    intro x hx
    rw [List.mem_reverse, List.mem_range'_1] at hx
    have hxlt : x < w.children.length := by omega
    dsimp only
    rw [List.getElem?_eq_getElem hxlt]
    exact hall _ (List.getElem_mem hxlt)
  have heq : resetInvocations w from_index
      = (List.range' from_index (w.children.length - from_index)).reverse := by
    unfold resetInvocations
    exact List.filter_eq_self.mpr hsub
  refine ⟨heq, ?_, ?_⟩
  · rw [heq, List.pairwise_reverse]
    exact List.pairwise_lt_range' from_index _
  · intro i h1 h2
    rw [heq, List.count_reverse]
    refine List.count_eq_one_of_mem (List.nodup_range' from_index _) ?_
    rw [List.mem_range'_1]
    omega

/-- Witness for C5: `reset(0)` on a concrete three-step controller invokes the
resets of steps 2, 1 and 0, in that order. -/
theorem c5_witness :
    resetInvocations wThree 0 = (List.range' 0 (wThree.children.length - 0)).reverse
    ∧ resetInvocations wThree 0 = [2, 1, 0] :=
  ⟨(c5_reset_reverse_order wThree 0 (by decide) (by decide)).1, by decide⟩

end WizardAppWidget

namespace WizardAppWidget

/-- C3 counterexample: three steps, the first two already SUCCESS with
`auto_advance` set, step 0 selected.  One state-change event moves the
selection to step 1 and stops there: the code does not chain on to step 2 as
the claim requires, because `_consider_auto_advance` runs once per
state-change event and a selection change alone re-runs only
`_update_buttons`. -/
theorem c3_counterexample :
    ((update_step_state 0 wChain).bind fun w => w.selected_index) = some 1
    ∧ ¬ (((update_step_state 0 wChain).bind fun w => w.selected_index) = some 2) := by
  have h1 : ((update_step_state 0 wChain).bind fun w => w.selected_index) = some 1 := rfl
  refine ⟨h1, fun h => ?_⟩
  rw [h1] at h
  exact absurd h (by decide)

/-- C3 (amended): the auto-advance check runs on every state-change event;
when the selected step `i` has `auto_advance` set, its state is SUCCESS and it
is not the last step, the event moves `selected_index` to exactly `i + 1` —
one step per event; an already-SUCCESS auto-advance step at `i + 1` is not
advanced past until a further state-change event is delivered. -/
theorem update_buttons_exists (w : WizardAppWidget) (i : Nat) (s : WizardAppWidgetStep)
    (hsel : w.selected_index = some i) (hs : w.children[i]? = some s) :
    ∃ w2, update_buttons w = some w2 ∧ w2.selected_index = w.selected_index
      ∧ w2.children = w.children :=
  ⟨_, update_buttons_eq w i s hsel hs, rfl, rfl⟩

theorem update_step_state_eq (phase : Nat) (w wB wC : WizardAppWidget)
    (hB : update_buttons (update_titles phase w) = some wB)
    (hC : consider_auto_advance wB = some wC)
    (hne : wC.selected_index ≠ wB.selected_index) :
    update_step_state phase w = update_buttons wC := by
  simp only [update_step_state, hB, hC]
  rw [if_neg hne]

theorem c3_auto_advance_single_step (phase : Nat) (w : WizardAppWidget) (i : Nat)
    (s : WizardAppWidgetStep)
    (hsel : w.selected_index = some i) (hs : w.children[i]? = some s)
    (hadv : s.auto_advance = true) (hsucc : s.state = StateVal.enum .SUCCESS)
    (hlast : i + 1 ≠ w.children.length) :
    ∃ w2, update_step_state phase w = some w2 ∧ w2.selected_index = some (i + 1) := by
  have hi : i < w.children.length := by
    rcases List.getElem?_eq_some.mp hs with ⟨h, -⟩
    exact h
  have hi1 : i + 1 < w.children.length := by omega
  have hget2 : w.children[i + 1]? = some (w.children[i + 1]) :=
    List.getElem?_eq_getElem hi1
  obtain ⟨wB, hB, hBsel, hBch⟩ :=
    update_buttons_exists (update_titles phase w) i s hsel hs
  have hBsel2 : wB.selected_index = some i := by
    rw [hBsel]; exact hsel
  have hBch2 : wB.children = w.children := hBch
  have hBs : wB.children[i]? = some s := by
    rw [hBch2]; exact hs
  have hBlast : i + 1 ≠ wB.children.length := by
    rw [hBch2]; exact hlast
  have hC := consider_auto_advance_advances wB i s hBsel2 hBs hadv hsucc hBlast
  have hne : ({wB with selected_index := some (i + 1)} : WizardAppWidget).selected_index
      ≠ wB.selected_index := by
    rw [hBsel2]
    simp
  have hmain := update_step_state_eq phase w wB _ hB hC hne
  have hgetC : ({wB with selected_index := some (i + 1)} : WizardAppWidget).children[i + 1]?
      = some (w.children[i + 1]) := by
    show wB.children[i + 1]? = _
    rw [hBch2]; exact hget2
  have hfinal := update_buttons_eq ({wB with selected_index := some (i + 1)} : WizardAppWidget)
      (i + 1) (w.children[i + 1]) rfl hgetC
  exact ⟨_, hmain.trans hfinal, rfl⟩

/-- Witness for the amended C3 at the concrete chaining configuration: the
state-change event advances the selection from step 0 to step 1. -/
theorem c3_witness :
    wChain.selected_index = some 0
    ∧ ∃ w2, update_step_state 0 wChain = some w2 ∧ w2.selected_index = some (0 + 1) :=
  ⟨rfl,
   c3_auto_advance_single_step 0 wChain 0 (stepOf (.enum .SUCCESS) true true)
     rfl rfl rfl rfl (by decide)⟩

end WizardAppWidget
